import Mathlib

/-!
A shallow embedding of the BEF executor test driver
(lib/bef_executor_driver/bef_executor_driver.cc, function RunBefExecutor).

The driver is a single C++ function that loads a BEF program, selects a list
of functions to run, executes each one sequentially against an asynchronous
host engine, prints each function result line, drains and restarts the
engine between functions, and leak-checks the global async-value count.

We embed the orchestration logic as pure functions producing an event trace
(one event per observable driver action: a printed line, a call into the
engine, an abort) together with an outcome.  Behavior of the external
engine (the resolved content of each result slot, the live async-value
count after a run, whether the run cancels the host) is supplied by an
oracle structure per function, since the engine itself is outside the
driver source.
-/

namespace tfrt

/-- The four values of the `HostAllocatorType` enum consumed by the switch at
lines 93-111 of bef_executor_driver.cc. -/
inductive HostAllocatorType where
  | kMalloc
  | kTestFixedSizeMalloc
  | kProfiledMalloc
  | kLeakCheckMalloc
  deriving DecidableEq, Repr

/-- The shapes of allocators the driver can construct: a plain malloc
allocator, the fixed-size test allocator, or a profiling / leak-checking
wrapper around an inner allocator. -/
inductive HostAllocator where
  | mallocAllocator
  | fixedSizeAllocator
  | profiledAllocator (inner : HostAllocator)
  | leakCheckAllocator (inner : HostAllocator)
  deriving DecidableEq, Repr

/-- The allocator-selection switch of RunBefExecutor
(bef_executor_driver.cc lines 92-111): `kMalloc` yields a malloc allocator,
`kTestFixedSizeMalloc` a fixed-size allocator, `kProfiledMalloc` a profiled
wrapper around a malloc allocator, and `kLeakCheckMalloc` a leak-check
wrapper around a malloc allocator. -/
def selectHostAllocator : HostAllocatorType → HostAllocator
  | .kMalloc => .mallocAllocator
  | .kTestFixedSizeMalloc => .fixedSizeAllocator
  | .kProfiledMalloc => .profiledAllocator .mallocAllocator
  | .kLeakCheckMalloc => .leakCheckAllocator .mallocAllocator

/-- A function of the loaded BEF program, as the driver sees it: a name
(possibly empty for anonymous functions), the declared argument types and
the declared result types. -/
structure BEFFunction where
  name : String
  argument_types : List String
  result_types : List String
  deriving DecidableEq, Repr

/-- The loaded BEF file: its list of functions in declaration order
(what `GetFunctionList` returns). -/
structure BEFFileModel where
  functions : List BEFFunction
  deriving DecidableEq, Repr

/-- The lookup `BEFFile::GetFunction(name)`: find the function by name. -/
def BEFFileModel.getFunction (bef : BEFFileModel) (fn_name : String) :
    Option BEFFunction :=
  bef.functions.find? (fun f => f.name = fn_name)

/-- A fully resolved async value, as the driver reads it after `Await`:
either an error is present (`GetErrorIfPresent`), or the payload is read
through one of the typed accessors `get<bool>`, `get<int32_t>`,
`get<int64_t>`, `get<float>`, `get<double>`.  The float and double payloads
are carried as the text the output stream renders for them, since the
floating-point formatting is done by the external stream library. -/
structure ResolvedAV where
  errorMessage : Option String
  boolPayload : Bool
  i32Payload : Int
  i64Payload : Int
  f32Payload : String
  f64Payload : String
  deriving DecidableEq, Repr

/-- The per-result printing logic of the report loop
(bef_executor_driver.cc lines 234-249): an error prints
`<<error: message>>`; otherwise the declared type name selects the typed
accessor (`i1` as bool, `i32`/`i64` as integers, `f32`/`f64` as floats) and
any other type prints the type name followed by ` value`.  A bool printed
through the llvm output stream renders as `1` or `0`. -/
def formatResult (type_name : String) (av : ResolvedAV) : String :=
  match av.errorMessage with
  | some msg => "<<error: " ++ msg ++ ">>"
  | none =>
    if type_name = "i1" then (if av.boolPayload then "1" else "0")
    else if type_name = "i32" then toString av.i32Payload
    else if type_name = "i64" then toString av.i64Payload
    else if type_name = "f32" then av.f32Payload
    else if type_name = "f64" then av.f64Payload
    else type_name ++ " value"

/-- The comma logic of the report loop (lines 233-255): each result is
printed, followed by a comma except after the last one. -/
def joinResults : List (String × ResolvedAV) → String
  | [] => ""
  | [p] => formatResult p.1 p.2
  | p :: q :: rest => formatResult p.1 p.2 ++ "," ++ joinResults (q :: rest)

/-- The full returned-results line (lines 230-255): the function name in
single quotes, then ` returned `, then the joined results. -/
def resultLine (fn_name : String) (pairs : List (String × ResolvedAV)) :
    String :=
  "\x27" ++ fn_name ++ "\x27 returned " ++ joinResults pairs

/-- One observable driver action.  Print events carry the text of the line
without its trailing newline; engine events mark the calls into the host
context; `leakAbort` is the fatal `abort()` on a failed leak check. -/
inductive Event where
  | notRunningNotice (fn_name : String)
  | runningHeader (fn_name : String)
  | dispatch (fn_name : String)
  | await (fn_name : String)
  | report (line : String)
  | quiesce (fn_name : String)
  | restart (fn_name : String)
  | release (fn_name : String)
  | leakAbort (fn_name : String) (before after : Nat)
  | notFoundError (fn_name : String)
  deriving DecidableEq, Repr

/-- The engine-side behavior of executing one function, supplied as an
oracle: the resolved content of result slot `i` after `Await`, the live
async-value count observed after the result slots are released (as a
function of the count observed before dispatch), and whether the execution
leaves the host context in the canceled state. -/
structure FnBehavior where
  resolvedAt : Nat → ResolvedAV
  countAfter : Nat → Nat
  cancels : Bool

/-- The per-function body of the driver loop
(bef_executor_driver.cc lines 198-284).  Input state: the current live
async-value count and the host cancellation flag.  A function with
arguments prints a notice and is not dispatched; an anonymous function is
skipped silently; otherwise the driver captures the baseline count, prints
the running header, dispatches, awaits, reports the results when the
declared result list is nonempty, quiesces, restarts (clearing the
cancellation flag), releases the result slots, and, when allocation
tracking is enabled, aborts if the count changed.  Returns the events and
`some (newCount, newCanceled)`, or `none` when the process aborted. -/
def runOne (tracking : Bool) (beh : FnBehavior) (count : Nat)
    (canceled : Bool) (fn : BEFFunction) :
    List Event × Option (Nat × Bool) :=
  if fn.argument_types ≠ [] then
    ([.notRunningNotice fn.name], some (count, canceled))
  else if fn.name = "" then
    ([], some (count, canceled))
  else
    let before := count
    let resolved := (List.range fn.result_types.length).map beh.resolvedAt
    let reportEvs : List Event :=
      if fn.result_types = [] then []
      else [.report (resultLine fn.name (fn.result_types.zip resolved))]
    let evs := [.runningHeader fn.name, .dispatch fn.name, .await fn.name]
      ++ reportEvs ++ [.quiesce fn.name, .restart fn.name, .release fn.name]
    let after := beh.countAfter count
    if tracking ∧ after ≠ before then
      (evs ++ [.leakAbort fn.name before after], none)
    else
      (evs, some (after, false))

/-- The driver loop over the selected function list (lines 198-284),
threading the live async-value count and the host cancellation flag through
the sequential runs; an abort stops the loop. -/
def runList (tracking : Bool) (beh : BEFFunction → FnBehavior) :
    Nat → Bool → List BEFFunction → List Event × Option (Nat × Bool)
  | count, canceled, [] => ([], some (count, canceled))
  | count, canceled, fn :: rest =>
    match runOne tracking (beh fn) count canceled fn with
    | (evs, none) => (evs, none)
    | (evs, some (c, cx)) =>
      let r := runList tracking beh c cx rest
      (evs ++ r.1, r.2)

/-- The entry-point selection of RunBefExecutor (lines 176-195): with no
requested names, every function of the file in declaration order; otherwise
each requested name is resolved in order and the first name that does not
resolve is a hard error. -/
def resolveNames (bef : BEFFileModel) : List String →
    Except String (List BEFFunction)
  | [] => .ok []
  | n :: rest =>
    match bef.getFunction n with
    | none => .error n
    | some f =>
      match resolveNames bef rest with
      | .error m => .error m
      | .ok fs => .ok (f :: fs)

/-- Lines 176-195: the selected function list is the whole file when the
requested list is empty, and the resolved requested names otherwise. -/
def selectFunctions (bef : BEFFileModel) (requested : List String) :
    Except String (List BEFFunction) :=
  if requested = [] then .ok bef.functions
  else resolveNames bef requested

/-- The externally observable result of the whole driver run: a normal
return with an exit code, or an abnormal `abort()`. -/
inductive DriverOutcome where
  | exitCode (code : Nat)
  | aborted
  deriving DecidableEq, Repr

/-- The run configuration fields the modelled part of the driver consumes:
the requested function names and the allocator strategy. -/
structure RunBefConfig where
  functions : List String
  host_allocator_type : HostAllocatorType

/-- The external world of one driver run: the result of `BEFFile::Open`
(`none` on parse failure), the engine-side behavior of each function,
whether async-value allocation tracking is enabled, and whether the
diagnostic verifier at the end finds every expected diagnostic matched
(`mlir::failed(source_mgr_handler.verify())` is false exactly then). -/
structure World where
  befOpen : Option BEFFileModel
  behavior : BEFFunction → FnBehavior
  tracking : Bool
  verifierMatched : Bool

/-- The exit code produced by `return mlir::failed(source_mgr_handler.verify())`
(lines 173 and 289): 0 when every diagnostic matched, 1 otherwise. -/
def verifierExit (matched : Bool) : Nat :=
  if matched then 0 else 1

/-- RunBefExecutor from the point the BEF file is opened (lines 169-290):
on parse failure the diagnostic verifier alone decides the exit code and no
function runs; an unresolved requested name prints an error and returns 1
before any function runs; otherwise the loop runs over the selected
functions starting from a zero live async-value count and a clear
cancellation flag (asserted at lines 131-132), the program is released and
the diagnostic verifier decides the exit code, unless the loop aborted. -/
def RunBefExecutor (cfg : RunBefConfig) (w : World) :
    List Event × DriverOutcome :=
  match w.befOpen with
  | none => ([], .exitCode (verifierExit w.verifierMatched))
  | some bef =>
    match selectFunctions bef cfg.functions with
    | .error n => ([.notFoundError n], .exitCode 1)
    | .ok fns =>
      match runList w.tracking w.behavior 0 false fns with
      | (evs, none) => (evs, .aborted)
      | (evs, some _) => (evs, .exitCode (verifierExit w.verifierMatched))

/-! Helper definitions used by concrete witnesses. -/

/-- A resolved async value with no error and zero payloads. -/
def trivialAV : ResolvedAV :=
  { errorMessage := none, boolPayload := false, i32Payload := 0,
    i64Payload := 0, f32Payload := "0", f64Payload := "0" }

/-- A behavior that resolves every slot to `trivialAV`, leaves the live
async-value count unchanged and does not cancel. -/
def constBehavior : FnBehavior :=
  { resolvedAt := fun _ => trivialAV, countAfter := fun c => c,
    cancels := false }

/-- A behavior that leaks one async value per run. -/
def leakBehavior : FnBehavior :=
  { resolvedAt := fun _ => trivialAV, countAfter := fun c => c + 1,
    cancels := false }

/-! Helper lemmas. -/

theorem intercalate_go_comma (x y : String) (rest : List String) :
    String.intercalate.go x "," (y :: rest)
      = x ++ "," ++ String.intercalate.go y "," rest := by
  induction rest generalizing x y with
  | nil => rfl
  | cons z zs ih =>
    rw [show String.intercalate.go x "," (y :: z :: zs)
          = String.intercalate.go (x ++ "," ++ y) "," (z :: zs) from rfl,
        ih, ih]
    simp [String.append_assoc]

theorem joinResults_eq_intercalate :
    ∀ pairs : List (String × ResolvedAV),
      joinResults pairs
        = String.intercalate "," (pairs.map fun p => formatResult p.1 p.2)
  | [] => rfl
  | [_] => rfl
  | p :: q :: rest => by
    rw [joinResults, joinResults_eq_intercalate (q :: rest)]
    simp only [List.map_cons]
    rw [show String.intercalate ","
          (formatResult p.1 p.2 :: formatResult q.1 q.2
            :: rest.map fun r => formatResult r.1 r.2)
        = String.intercalate.go (formatResult p.1 p.2) ","
            (formatResult q.1 q.2
              :: rest.map fun r => formatResult r.1 r.2) from rfl]
    rw [intercalate_go_comma]
    rfl

/-! Claim theorems. -/

/-- C9: the allocator selector is total over the four strategy variants and
produces the allocator each variant names: a plain malloc allocator for
`kMalloc`, a fixed-size allocator for `kTestFixedSizeMalloc`, a profiling
wrapper around a malloc allocator for `kProfiledMalloc`, and a leak-check
wrapper around a malloc allocator for `kLeakCheckMalloc`; being a total
Lean function over the closed enum, it has no error path. -/
theorem c9_allocator_selector_total :
    selectHostAllocator .kMalloc = .mallocAllocator ∧
    selectHostAllocator .kTestFixedSizeMalloc = .fixedSizeAllocator ∧
    selectHostAllocator .kProfiledMalloc
      = .profiledAllocator .mallocAllocator ∧
    selectHostAllocator .kLeakCheckMalloc
      = .leakCheckAllocator .mallocAllocator :=
  ⟨rfl, rfl, rfl, rfl⟩

/-- C3: a function with a nonempty declared argument list is never
dispatched: the driver only prints the not-running notice, leaves the live
count and the cancellation flag unchanged, performs none of the other steps
(no header, dispatch, await, report, quiesce, restart, release, or leak
event appears), and the loop continues with the remaining functions. -/
theorem c3_args_never_dispatched (tracking : Bool)
    (beh : BEFFunction → FnBehavior) (count : Nat) (canceled : Bool)
    (fn : BEFFunction) (rest : List BEFFunction)
    (h : fn.argument_types ≠ []) :
    runOne tracking (beh fn) count canceled fn
      = ([.notRunningNotice fn.name], some (count, canceled)) ∧
    runList tracking beh count canceled (fn :: rest)
      = (.notRunningNotice fn.name
           :: (runList tracking beh count canceled rest).1,
         (runList tracking beh count canceled rest).2) := by
  constructor
  · simp [runOne, h]
  · simp [runList, runOne, h]

/-- C3 witness at a concrete function with one argument. -/
theorem c3_witness :
    runOne false constBehavior 0 false
        { name := "f", argument_types := ["i32"], result_types := [] }
      = ([.notRunningNotice "f"], some (0, false)) :=
  (c3_args_never_dispatched false (fun _ => constBehavior) 0 false
    { name := "f", argument_types := ["i32"], result_types := [] } []
    (by decide)).1

/-- C7: a function with an empty name and an empty argument list is skipped
silently: no event at all is produced for it, the live count and the
cancellation flag are unchanged, and the loop over the remaining functions
proceeds as if the function were absent. -/
theorem c7_anonymous_skipped_silently (tracking : Bool)
    (beh : BEFFunction → FnBehavior) (count : Nat) (canceled : Bool)
    (fn : BEFFunction) (rest : List BEFFunction)
    (hname : fn.name = "") (hargs : fn.argument_types = []) :
    runOne tracking (beh fn) count canceled fn = ([], some (count, canceled)) ∧
    runList tracking beh count canceled (fn :: rest)
      = runList tracking beh count canceled rest := by
  constructor
  · simp [runOne, hname, hargs]
  · simp [runList, runOne, hname, hargs]

/-- C7 witness at a concrete anonymous function. -/
theorem c7_witness :
    runOne true constBehavior 5 true
        { name := "", argument_types := [], result_types := ["i32"] }
      = ([], some (5, true)) :=
  (c7_anonymous_skipped_silently true (fun _ => constBehavior) 5 true
    { name := "", argument_types := [], result_types := ["i32"] } []
    (by decide) (by decide)).1

/-- The exact result of `runOne` on an executed function when the leak
check does not fire (tracking disabled, or the count is preserved). -/
theorem runOne_executed_noabort (tracking : Bool) (beh : FnBehavior)
    (count : Nat) (canceled : Bool) (fn : BEFFunction)
    (hargs : fn.argument_types = []) (hname : fn.name ≠ "")
    (hnl : tracking = true → beh.countAfter count = count) :
    runOne tracking beh count canceled fn
      = ([.runningHeader fn.name, .dispatch fn.name, .await fn.name]
          ++ (if fn.result_types = [] then []
              else [.report (resultLine fn.name (fn.result_types.zip
                ((List.range fn.result_types.length).map beh.resolvedAt)))])
          ++ [.quiesce fn.name, .restart fn.name, .release fn.name],
         some (beh.countAfter count, false)) := by
  have hl : ¬((tracking : Prop) ∧ beh.countAfter count ≠ count) := by
    cases tracking with
    | false => simp
    | true => simp [hnl rfl]
  simp [runOne, hargs, hname, hl]

/-- The events of `runOne` on an executed function always start with the
running header, the dispatch and the await, followed by the optional report
and the quiesce, restart and release calls, with an optional trailing leak
abort. -/
theorem runOne_executed_events (tracking : Bool) (beh : FnBehavior)
    (count : Nat) (canceled : Bool) (fn : BEFFunction)
    (hargs : fn.argument_types = []) (hname : fn.name ≠ "") :
    ∃ rep tailEvs,
      (runOne tracking beh count canceled fn).1
        = [.runningHeader fn.name, .dispatch fn.name, .await fn.name]
          ++ rep
          ++ [.quiesce fn.name, .restart fn.name, .release fn.name]
          ++ tailEvs := by
  by_cases hl : (tracking : Prop) ∧ beh.countAfter count ≠ count <;>
    by_cases hr : fn.result_types = []
  · exact ⟨[], [.leakAbort fn.name count (beh.countAfter count)],
      by simp [runOne, hargs, hname, hl, hr]⟩
  · exact ⟨[.report (resultLine fn.name (fn.result_types.zip
        ((List.range fn.result_types.length).map beh.resolvedAt)))],
      [.leakAbort fn.name count (beh.countAfter count)],
      by simp [runOne, hargs, hname, hl, hr]⟩
  · exact ⟨[], [], by simp [runOne, hargs, hname, hl, hr]⟩
  · exact ⟨[.report (resultLine fn.name (fn.result_types.zip
        ((List.range fn.result_types.length).map beh.resolvedAt)))], [],
      by simp [runOne, hargs, hname, hl, hr]⟩

/-- C10: for an executed function the running header is always printed, and
a returned-results report line is emitted if and only if the declared
result-type list is nonempty; with no declared results the Report step
prints nothing. -/
theorem c10_empty_results_print_nothing (tracking : Bool) (beh : FnBehavior)
    (count : Nat) (canceled : Bool) (fn : BEFFunction)
    (hargs : fn.argument_types = []) (hname : fn.name ≠ "") :
    Event.runningHeader fn.name ∈ (runOne tracking beh count canceled fn).1 ∧
    ((∃ line, Event.report line ∈ (runOne tracking beh count canceled fn).1)
      ↔ fn.result_types ≠ []) := by
  by_cases hl : (tracking : Prop) ∧ beh.countAfter count ≠ count <;>
    by_cases hr : fn.result_types = [] <;>
      simp [runOne, hargs, hname, hl, hr]

/-- C10 witness at a concrete function with no declared results. -/
theorem c10_witness :
    Event.runningHeader "f" ∈ (runOne false constBehavior 0 false
        { name := "f", argument_types := [], result_types := [] }).1 ∧
    ¬∃ line, Event.report line ∈ (runOne false constBehavior 0 false
        { name := "f", argument_types := [], result_types := [] }).1 := by
  have h := c10_empty_results_print_nothing false constBehavior 0 false
    { name := "f", argument_types := [], result_types := [] }
    (by decide) (by decide)
  exact ⟨h.1, fun he => (h.2.mp he) rfl⟩

/-- C1: for every executed function with a nonempty declared result list,
the trace contains the report of the returned-results line; that line is
the function name in single quotes, ` returned `, then the results in
declared order, comma-separated with no trailing comma; a result resolved
to an error prints `<<error: message>>`, a result of declared type
`i1`, `i32`, `i64`, `f32` or `f64` prints its boolean, integer or float
payload, and a result of any other declared type prints the type name
followed by ` value`. -/
theorem c1_result_line_format (tracking : Bool) (beh : FnBehavior)
    (count : Nat) (canceled : Bool) (fn : BEFFunction)
    (hargs : fn.argument_types = []) (hname : fn.name ≠ "")
    (hres : fn.result_types ≠ []) :
    Event.report (resultLine fn.name (fn.result_types.zip
        ((List.range fn.result_types.length).map beh.resolvedAt)))
      ∈ (runOne tracking beh count canceled fn).1 ∧
    (∀ (nm : String) (pairs : List (String × ResolvedAV)),
      resultLine nm pairs
        = "\x27" ++ nm ++ "\x27 returned "
            ++ String.intercalate ","
                (pairs.map fun p => formatResult p.1 p.2)) ∧
    (∀ (ty : String) (av : ResolvedAV) (msg : String),
      av.errorMessage = some msg →
      formatResult ty av = "<<error: " ++ msg ++ ">>") ∧
    (∀ av : ResolvedAV, av.errorMessage = none →
      formatResult "i1" av = (if av.boolPayload then "1" else "0") ∧
      formatResult "i32" av = toString av.i32Payload ∧
      formatResult "i64" av = toString av.i64Payload ∧
      formatResult "f32" av = av.f32Payload ∧
      formatResult "f64" av = av.f64Payload) ∧
    (∀ (ty : String) (av : ResolvedAV), av.errorMessage = none →
      ty ∉ (["i1", "i32", "i64", "f32", "f64"] : List String) →
      formatResult ty av = ty ++ " value") := by
  refine ⟨?_, ?_, ?_, ?_, ?_⟩
  · by_cases hl : (tracking : Prop) ∧ beh.countAfter count ≠ count <;>
      simp [runOne, hargs, hname, hres, hl]
  · intro nm pairs
    rw [resultLine, joinResults_eq_intercalate]
  · intro ty av msg h
    simp [formatResult, h]
  · intro av h
    refine ⟨?_, ?_, ?_, ?_, ?_⟩ <;> simp [formatResult, h]
  · intro ty av he hmem
    simp only [List.mem_cons, List.mem_singleton, not_or] at hmem
    obtain ⟨h1, h2, h3, h4, h5, _⟩ := hmem
    simp [formatResult, he, h1, h2, h3, h4, h5]

/-- The behavior used by the C1 witness: slot 0 resolves to the 32-bit
integer 3, slot 1 to the 64-bit float rendered `2.5`. -/
def c1Behavior : FnBehavior :=
  { resolvedAt := fun i =>
      if i = 0 then
        { errorMessage := none, boolPayload := false, i32Payload := 3,
          i64Payload := 0, f32Payload := "", f64Payload := "" }
      else
        { errorMessage := none, boolPayload := false, i32Payload := 0,
          i64Payload := 0, f32Payload := "", f64Payload := "2.5" },
    countAfter := fun c => c, cancels := false }

/-- The behavior used by the C1 witness error case: slot 0 resolves to the
32-bit integer 3, slot 1 to an error with message `div by zero`. -/
def c1ErrBehavior : FnBehavior :=
  { resolvedAt := fun i =>
      if i = 0 then
        { errorMessage := none, boolPayload := false, i32Payload := 3,
          i64Payload := 0, f32Payload := "", f64Payload := "" }
      else
        { errorMessage := some "div by zero", boolPayload := false,
          i32Payload := 0, i64Payload := 0, f32Payload := "",
          f64Payload := "2.5" },
    countAfter := fun c => c, cancels := false }

/-- C1 witness: a function named `name` declaring `[i32, f64]` resolving to
`(3, 2.5)` reports the line with text `3,2.5`, and with the second result
an error `div by zero` it reports the line with text
`3,<<error: div by zero>>`. -/
theorem c1_witness :
    Event.report "\x27name\x27 returned 3,2.5"
      ∈ (runOne false c1Behavior 0 false
          { name := "name", argument_types := [],
            result_types := ["i32", "f64"] }).1 ∧
    Event.report "\x27name\x27 returned 3,<<error: div by zero>>"
      ∈ (runOne false c1ErrBehavior 0 false
          { name := "name", argument_types := [],
            result_types := ["i32", "f64"] }).1 := by
  constructor
  · have h := (c1_result_line_format false c1Behavior 0 false
      { name := "name", argument_types := [], result_types := ["i32", "f64"] }
      (by decide) (by decide) (by decide)).1
    have e : resultLine "name"
        ((["i32", "f64"] : List String).zip
          ((List.range (["i32", "f64"] : List String).length).map
            c1Behavior.resolvedAt))
        = "\x27name\x27 returned 3,2.5" := by decide
    rw [← e]
    exact h
  · have h := (c1_result_line_format false c1ErrBehavior 0 false
      { name := "name", argument_types := [], result_types := ["i32", "f64"] }
      (by decide) (by decide) (by decide)).1
    have e : resultLine "name"
        ((["i32", "f64"] : List String).zip
          ((List.range (["i32", "f64"] : List String).length).map
            c1ErrBehavior.resolvedAt))
        = "\x27name\x27 returned 3,<<error: div by zero>>" := by decide
    rw [← e]
    exact h

/-- Unfolding of the driver loop on a function whose run does not abort. -/
theorem runList_cons_noabort (tracking : Bool) (beh : BEFFunction → FnBehavior)
    (count : Nat) (canceled : Bool) (fn : BEFFunction)
    (rest : List BEFFunction) (evs : List Event) (c : Nat) (cx : Bool)
    (h : runOne tracking (beh fn) count canceled fn = (evs, some (c, cx))) :
    runList tracking beh count canceled (fn :: rest)
      = (evs ++ (runList tracking beh c cx rest).1,
         (runList tracking beh c cx rest).2) := by
  simp [runList, h]

/-- Unfolding of the driver loop on a function whose run aborts. -/
theorem runList_cons_abort (tracking : Bool) (beh : BEFFunction → FnBehavior)
    (count : Nat) (canceled : Bool) (fn : BEFFunction)
    (rest : List BEFFunction) (evs : List Event)
    (h : runOne tracking (beh fn) count canceled fn = (evs, none)) :
    runList tracking beh count canceled (fn :: rest) = (evs, none) := by
  simp [runList, h]

/-- The trace of the driver loop on a nonempty list begins with the events
of the first function. -/
theorem runList_cons_events (tracking : Bool) (beh : BEFFunction → FnBehavior)
    (count : Nat) (canceled : Bool) (fn : BEFFunction)
    (rest : List BEFFunction) :
    ∃ s, (runList tracking beh count canceled (fn :: rest)).1
      = (runOne tracking (beh fn) count canceled fn).1 ++ s := by
  rcases h : runOne tracking (beh fn) count canceled fn with ⟨evs, out⟩
  cases out with
  | none => exact ⟨[], by simp [runList_cons_abort _ _ _ _ _ _ _ h, h]⟩
  | some st =>
    rcases st with ⟨c, cx⟩
    exact ⟨(runList tracking beh c cx rest).1,
      by simp [runList_cons_noabort _ _ _ _ _ _ _ _ _ h, h]⟩

/-- On an executed function with a leaking count, `runOne` under tracking
ends in the leak abort. -/
theorem runOne_abort (beh : FnBehavior) (count : Nat) (canceled : Bool)
    (fn : BEFFunction) (hargs : fn.argument_types = []) (hname : fn.name ≠ "")
    (hleak : beh.countAfter count ≠ count) :
    (runOne true beh count canceled fn).2 = none ∧
    Event.leakAbort fn.name count (beh.countAfter count)
      ∈ (runOne true beh count canceled fn).1 := by
  by_cases hr : fn.result_types = [] <;> simp [runOne, hargs, hname, hr, hleak]

/-- C2: with allocation tracking enabled, an executed function whose live
async-value count after release differs from the baseline makes the driver
abort: the loop outcome is the abnormal `none`, the remaining functions
contribute no events, and the leak-abort event is in the trace; if the
counts are equal the loop continues with the next functions; an aborting
loop makes the whole driver end in `aborted`, which is distinct from every
normal exit code. -/
theorem c2_leak_check_fatal (beh : BEFFunction → FnBehavior) (count : Nat)
    (canceled : Bool) (fn : BEFFunction) (rest : List BEFFunction)
    (cfg : RunBefConfig) (w : World)
    (hargs : fn.argument_types = []) (hname : fn.name ≠ "") :
    ((beh fn).countAfter count ≠ count →
      (runList true beh count canceled (fn :: rest)).2 = none ∧
      (runList true beh count canceled (fn :: rest)).1
        = (runOne true (beh fn) count canceled fn).1 ∧
      Event.leakAbort fn.name count ((beh fn).countAfter count)
        ∈ (runList true beh count canceled (fn :: rest)).1) ∧
    ((beh fn).countAfter count = count →
      runList true beh count canceled (fn :: rest)
        = ((runOne true (beh fn) count canceled fn).1
             ++ (runList true beh count false rest).1,
           (runList true beh count false rest).2)) ∧
    (∀ bef fns evs, w.befOpen = some bef →
      selectFunctions bef cfg.functions = .ok fns →
      runList w.tracking w.behavior 0 false fns = (evs, none) →
      (RunBefExecutor cfg w).2 = DriverOutcome.aborted) ∧
    (∀ code, DriverOutcome.aborted ≠ DriverOutcome.exitCode code) := by
  refine ⟨?_, ?_, ?_, ?_⟩
  · intro hleak
    have ha := runOne_abort (beh fn) count canceled fn hargs hname hleak
    rcases hE : runOne true (beh fn) count canceled fn with ⟨evs, out⟩
    rw [hE] at ha
    obtain ⟨h2, hmem⟩ := ha
    simp only at h2 hmem
    subst h2
    have hl := runList_cons_abort true beh count canceled fn rest evs hE
    refine ⟨by simp [hl], by simp [hl, hE], ?_⟩
    rw [hl]
    exact hmem
  · intro heq
    have hf := runOne_executed_noabort true (beh fn) count canceled fn
      hargs hname (fun _ => heq)
    rw [heq] at hf
    rw [runList_cons_noabort true beh count canceled fn rest _ count false hf,
        hf]
  · intro bef fns evs hbef hsel hrun
    simp [RunBefExecutor, hbef, hsel, hrun]
  · intro code h
    cases h

/-- C2 witness: a function whose run leaks one async value aborts the
tracked loop. -/
theorem c2_witness :
    (runList true (fun _ => leakBehavior) 0 false
        [{ name := "f", argument_types := [], result_types := [] }]).2
      = none :=
  ((c2_leak_check_fatal (fun _ => leakBehavior) 0 false
      { name := "f", argument_types := [], result_types := [] } []
      { functions := [], host_allocator_type := .kMalloc }
      { befOpen := none, behavior := fun _ => leakBehavior,
        tracking := true, verifierMatched := true }
      (by decide) (by decide)).1 (by decide)).1

/-- The entry-point resolution errors exactly on the first requested name
that the file does not contain. -/
theorem resolveNames_first_missing (bef : BEFFileModel) :
    ∀ (req : List String) (n : String),
      req.find? (fun m => (bef.getFunction m).isNone) = some n →
      resolveNames bef req = .error n
  | [], n => by simp
  | m :: rest, n => by
    intro h
    rcases hg : bef.getFunction m with _ | f
    · simp [List.find?_cons, hg] at h
      subst h
      simp [resolveNames, hg]
    · simp [List.find?_cons, hg] at h
      have := resolveNames_first_missing bef rest n h
      simp [resolveNames, hg, this]

/-- C4: with a nonempty requested-name list containing a name the program
does not define, the driver emits only the not-found error for the first
unresolved name and returns exit code 1; no function at all is dispatched,
requested names that do resolve included. -/
theorem c4_unresolved_name_fail_fast (cfg : RunBefConfig) (w : World)
    (bef : BEFFileModel) (n : String)
    (hbef : w.befOpen = some bef) (hne : cfg.functions ≠ [])
    (hfind : cfg.functions.find? (fun m => (bef.getFunction m).isNone)
      = some n) :
    RunBefExecutor cfg w = ([.notFoundError n], .exitCode 1) ∧
    (∀ m, Event.dispatch m ∉ (RunBefExecutor cfg w).1) ∧
    (1 : Nat) ≠ 0 := by
  have hsel : selectFunctions bef cfg.functions = .error n := by
    simp [selectFunctions, hne,
      resolveNames_first_missing bef cfg.functions n hfind]
  refine ⟨by simp [RunBefExecutor, hbef, hsel], ?_, by simp⟩
  intro m
  simp [RunBefExecutor, hbef, hsel]

/-- C4 witness: a program with functions `a` and `b`, requested `[c]`. -/
theorem c4_witness :
    RunBefExecutor
        { functions := ["c"], host_allocator_type := .kMalloc }
        { befOpen := some { functions :=
            [{ name := "a", argument_types := [], result_types := [] },
             { name := "b", argument_types := [], result_types := [] }] },
          behavior := fun _ => constBehavior, tracking := false,
          verifierMatched := true }
      = ([.notFoundError "c"], .exitCode 1) :=
  (c4_unresolved_name_fail_fast
    { functions := ["c"], host_allocator_type := .kMalloc }
    { befOpen := some { functions :=
        [{ name := "a", argument_types := [], result_types := [] },
         { name := "b", argument_types := [], result_types := [] }] },
      behavior := fun _ => constBehavior, tracking := false,
      verifierMatched := true }
    { functions :=
        [{ name := "a", argument_types := [], result_types := [] },
         { name := "b", argument_types := [], result_types := [] }] }
    "c" rfl (by decide) (by decide)).1

/-- C5: on parse failure the driver runs no function and its exit code is
decided by the diagnostic verifier alone; on the normal path, after the
loop completed without abort, the exit code is decided the same way; the
exit code is 0 exactly when every diagnostic matched. -/
theorem c5_exit_equals_verifier (cfg : RunBefConfig) (w : World) :
    (w.befOpen = none →
      RunBefExecutor cfg w
        = ([], .exitCode (verifierExit w.verifierMatched))) ∧
    (∀ bef fns evs st, w.befOpen = some bef →
      selectFunctions bef cfg.functions = .ok fns →
      runList w.tracking w.behavior 0 false fns = (evs, some st) →
      RunBefExecutor cfg w
        = (evs, .exitCode (verifierExit w.verifierMatched))) ∧
    (∀ b : Bool, verifierExit b = 0 ↔ b = true) := by
  refine ⟨?_, ?_, ?_⟩
  · intro h
    simp [RunBefExecutor, h]
  · intro bef fns evs st hbef hsel hrun
    simp [RunBefExecutor, hbef, hsel, hrun]
  · intro b
    cases b <;> simp [verifierExit]

/-- C5 witness: parse failure with unmatched diagnostics exits 1 with no
function run. -/
theorem c5_witness :
    RunBefExecutor { functions := [], host_allocator_type := .kMalloc }
        { befOpen := none, behavior := fun _ => constBehavior,
          tracking := false, verifierMatched := false }
      = ([], .exitCode 1) :=
  (c5_exit_equals_verifier
    { functions := [], host_allocator_type := .kMalloc }
    { befOpen := none, behavior := fun _ => constBehavior,
      tracking := false, verifierMatched := false }).1 rfl

/-- C6: runs are strictly sequential: for consecutive executed functions
`f` and `g` (`f` not aborting the leak check), the trace places the await,
quiesce, restart and release of `f` strictly before the dispatch of `g`,
with the restart of `f` before the dispatch of `g` in particular; and the
cancellation flag handed to the run of `g` is `false`, whatever the run of
`f` did, since the restart cleared it. -/
theorem c6_restart_before_next_dispatch (tracking : Bool)
    (beh : BEFFunction → FnBehavior) (count : Nat) (canceled : Bool)
    (f g : BEFFunction) (rest : List BEFFunction)
    (hfargs : f.argument_types = []) (hfname : f.name ≠ "")
    (hgargs : g.argument_types = []) (hgname : g.name ≠ "")
    (hnl : tracking = true → (beh f).countAfter count = count) :
    (∃ rep post,
      (runList tracking beh count canceled (f :: g :: rest)).1
        = [.runningHeader f.name, .dispatch f.name, .await f.name] ++ rep
          ++ [.quiesce f.name, .restart f.name, .release f.name,
              .runningHeader g.name, .dispatch g.name] ++ post) ∧
    (runOne tracking (beh f) count canceled f).2
      = some ((beh f).countAfter count, false) := by
  have hf := runOne_executed_noabort tracking (beh f) count canceled f
    hfargs hfname hnl
  refine ⟨?_, by rw [hf]⟩
  have hstep := runList_cons_noabort tracking beh count canceled f (g :: rest)
    _ ((beh f).countAfter count) false hf
  obtain ⟨s, hg⟩ :=
    runList_cons_events tracking beh ((beh f).countAfter count) false g rest
  obtain ⟨repG, tailG, hgshape⟩ := runOne_executed_events tracking (beh g)
    ((beh f).countAfter count) false g hgargs hgname
  refine ⟨(if f.result_types = [] then []
      else [.report (resultLine f.name (f.result_types.zip
        ((List.range f.result_types.length).map (beh f).resolvedAt)))]),
    Event.await g.name :: (repG
      ++ [.quiesce g.name, .restart g.name, .release g.name]
      ++ (tailG ++ s)), ?_⟩
  rw [hstep]
  simp only
  rw [hg, hgshape]
  simp

/-- C6 witness at two concrete consecutive functions. -/
theorem c6_witness :
    ∃ rep post,
      (runList false (fun _ => constBehavior) 0 false
          [{ name := "f", argument_types := [], result_types := [] },
           { name := "g", argument_types := [], result_types := [] }]).1
        = [.runningHeader "f", .dispatch "f", .await "f"] ++ rep
          ++ [.quiesce "f", .restart "f", .release "f",
              .runningHeader "g", .dispatch "g"] ++ post :=
  (c6_restart_before_next_dispatch false (fun _ => constBehavior) 0 false
    { name := "f", argument_types := [], result_types := [] }
    { name := "g", argument_types := [], result_types := [] } []
    (by decide) (by decide) (by decide) (by decide) (by decide)).1

/-- Modelled from the spec: the engine contract that a fully drained run
returns the live async-value counter to its pre-dispatch value — per spec
section 5, sampling at the quiescent points before dispatch and after
release is what makes the delta meaningful, and invariant (e) demands the
counters return to their baseline once the engine has fully drained. -/
def DrainsCleanly (beh : BEFFunction → FnBehavior) : Prop :=
  ∀ (fn : BEFFunction) (c : Nat), (beh fn).countAfter c = c

/-- The possible outcomes of `runOne` in terms of the count and flag. -/
theorem runOne_snd_cases (tracking : Bool) (beh : FnBehavior) (count : Nat)
    (canceled : Bool) (fn : BEFFunction) :
    (runOne tracking beh count canceled fn).2 = none ∨
    (runOne tracking beh count canceled fn).2 = some (count, canceled) ∨
    ((runOne tracking beh count canceled fn).2
        = some (beh.countAfter count, false) ∧
      (tracking = true → beh.countAfter count = count)) := by
  by_cases ha : fn.argument_types = []
  · by_cases hn : fn.name = ""
    · right; left
      simp [runOne, ha, hn]
    · by_cases hl : (tracking : Prop) ∧ beh.countAfter count ≠ count
      · left
        simp [runOne, ha, hn, hl]
      · right; right
        refine ⟨by simp [runOne, ha, hn, hl], ?_⟩
        intro ht
        subst ht
        simpa using hl
  · right; left
    simp [runOne, ha]

/-- The loop preserves the live async-value count when tracking is enabled
(the leak check enforces it) or when every run drains cleanly. -/
theorem runList_count_preserved (tracking : Bool)
    (beh : BEFFunction → FnBehavior)
    (hcase : tracking = true ∨ DrainsCleanly beh) :
    ∀ (fns : List BEFFunction) (count : Nat) (canceled : Bool)
      (evs : List Event) (c : Nat) (cx : Bool),
      runList tracking beh count canceled fns = (evs, some (c, cx)) →
      c = count
  | [], count, canceled, evs, c, cx => by
    intro hr
    simp [runList] at hr
    exact hr.2.1.symm
  | fn :: rest, count, canceled, evs, c, cx => by
    intro hr
    rcases hE : runOne tracking (beh fn) count canceled fn with ⟨evs1, out⟩
    cases out with
    | none =>
      rw [runList_cons_abort tracking beh count canceled fn rest evs1 hE]
        at hr
      simp at hr
    | some st =>
      rcases st with ⟨c1, cx1⟩
      rw [runList_cons_noabort tracking beh count canceled fn rest evs1 c1
        cx1 hE] at hr
      rcases hrr : runList tracking beh c1 cx1 rest with ⟨evs2, out2⟩
      rw [hrr] at hr
      have h2 : out2 = some (c, cx) := by
        have := congrArg Prod.snd hr
        simpa using this
      subst h2
      have hc1 : c = c1 :=
        runList_count_preserved tracking beh hcase rest c1 cx1 evs2 c cx hrr
      have hc2 : c1 = count := by
        rcases runOne_snd_cases tracking (beh fn) count canceled fn with
          h | h | ⟨h, htr⟩
        · rw [hE] at h
          simp at h
        · rw [hE] at h
          simp at h
          exact h.1
        · rw [hE] at h
          simp at h
          cases hcase with
          | inl ht => rw [h.1, htr ht]
          | inr hd => rw [h.1, hd fn count]
      rw [hc1, hc2]

/-- Modelled from the spec: the live reference-counted-engine-object
counter, the second global counter asserted zero at entry (line 89) and at
scope exit (lines 136-137).  The driver never reads it inside the loop, so
its evolution across one executed function is an engine-side oracle
`refBeh`; a function that is skipped (arguments, or anonymous) is never
dispatched and leaves the counter unchanged. -/
def refCountAfterRun (refBeh : BEFFunction → Nat → Nat) (count : Nat)
    (fn : BEFFunction) : Nat :=
  if fn.argument_types ≠ [] then count
  else if fn.name = "" then count
  else refBeh fn count

/-- Modelled from the spec: the reference-counted-object counter after the
whole sequential loop has run to its drained end state, folded over the
selected functions from the count at entry. -/
def refCountAfterList (refBeh : BEFFunction → Nat → Nat) :
    Nat → List BEFFunction → Nat
  | count, [] => count
  | count, fn :: rest =>
    refCountAfterList refBeh (refCountAfterRun refBeh count fn) rest

/-- Modelled from the spec: the engine teardown contract of invariant (e) —
once a run has fully drained and its result slots are released, every
reference-counted object created on behalf of that run has been released,
so the counter returns to its pre-dispatch value. -/
def ReleasesAllRefs (refBeh : BEFFunction → Nat → Nat) : Prop :=
  ∀ (fn : BEFFunction) (c : Nat), refBeh fn c = c

/-- Under the teardown contract the reference-count fold preserves the
counter across any function list. -/
theorem refCountAfterList_preserved (refBeh : BEFFunction → Nat → Nat)
    (h : ReleasesAllRefs refBeh) :
    ∀ (fns : List BEFFunction) (count : Nat),
      refCountAfterList refBeh count fns = count
  | [], _ => rfl
  | fn :: rest, count => by
    rw [refCountAfterList, refCountAfterList_preserved refBeh h rest]
    unfold refCountAfterRun
    split
    · rfl
    · split
      · rfl
      · exact h fn count

/-- C8: the entry and exit assertions over both global live-object counters
are valid.  For the live async-value counter: starting from the asserted
zero count, a loop that completes normally under tracking ends with the
counter back at zero (each leak check enforced it per function), and for
any tracking setting the same holds whenever every run drains cleanly, as
the engine contract demands.  For the live reference-counted-object
counter: starting from the asserted zero count, a run that reaches the
drained end state ends with the counter back at zero under the engine
teardown contract. -/
theorem c8_exit_assertions_valid (beh : BEFFunction → FnBehavior)
    (refBeh : BEFFunction → Nat → Nat) (fns : List BEFFunction) :
    (∀ evs c cx, runList true beh 0 false fns = (evs, some (c, cx)) →
      c = 0) ∧
    (∀ (tracking : Bool) evs c cx, DrainsCleanly beh →
      runList tracking beh 0 false fns = (evs, some (c, cx)) → c = 0) ∧
    (ReleasesAllRefs refBeh → refCountAfterList refBeh 0 fns = 0) := by
  refine ⟨?_, ?_, ?_⟩
  · intro evs c cx h
    exact runList_count_preserved true beh (Or.inl rfl) fns 0 false evs c cx h
  · intro tracking evs c cx hd h
    exact runList_count_preserved tracking beh (Or.inr hd) fns 0 false evs
      c cx h
  · intro hrel
    exact refCountAfterList_preserved refBeh hrel fns 0

/-- C8 witness at a concrete one-function program, for both counters. -/
theorem c8_witness :
    (0 : Nat) = 0 ∧
    refCountAfterList (fun _ c => c) 0
        [{ name := "f", argument_types := [], result_types := [] }]
      = 0 :=
  ⟨(c8_exit_assertions_valid (fun _ => constBehavior) (fun _ c => c)
      [{ name := "f", argument_types := [], result_types := [] }]).1
    [.runningHeader "f", .dispatch "f", .await "f",
     .quiesce "f", .restart "f", .release "f"]
    0 false (by decide),
   (c8_exit_assertions_valid (fun _ => constBehavior) (fun _ c => c)
      [{ name := "f", argument_types := [], result_types := [] }]).2.2
    (fun _ _ => rfl)⟩

end tfrt
